import Mathlib

/-!
Verification of the spherical-metadata tool (`spatialmedia/spherical.py`).

The development shallow-embeds the functions of `spherical.py` in Lean:
pure string constants become Lean `String` constants, the crop regular
expression becomes an explicit digit-group splitter, `generate_spherical_xml`
becomes a total function returning `Option String` (`none` models Python's
`return False`), and the metadata-injection pipeline becomes explicit
state-passing over a box tree.

External collaborators (the `spatialmedia.mpeg` box model, which is part of
the repository but not among the supplied sources, and the standard
library's strict XML parser) are modelled from the specification; each such
definition carries a doc comment saying so.
-/

/-- 16-byte signature identifying spherical metadata uuid boxes
(source: `SPHERICAL_UUID_ID`, a Python byte string of 16 bytes). -/
def SPHERICAL_UUID_ID : String :=
  String.mk [Char.ofNat 0xff, Char.ofNat 0xcc, Char.ofNat 0x82, Char.ofNat 0x63,
             Char.ofNat 0xf8, Char.ofNat 0x55, Char.ofNat 0x4a, Char.ofNat 0x93,
             Char.ofNat 0x88, Char.ofNat 0x14, Char.ofNat 0x58, Char.ofNat 0x7a,
             Char.ofNat 0x02, Char.ofNat 0x52, Char.ofNat 0x1f, Char.ofNat 0xdd]

/-- Source constant `RDF_PREFIX` (the namespace declaration spliced in by the
parse-repair path).  Renamed here for technical reasons; the value is the
source's literal. -/
def RDF_DECL : String :=
  " xmlns:rdf=\"http://www.w3.org/1999/02/22-rdf-syntax-ns#\" "

/-- Source constant `SPHERICAL_XML_HEADER`. -/
def SPHERICAL_XML_HEADER : String :=
  "<?xml version=\"1.0\"?><rdf:SphericalVideo\nxmlns:rdf=\"http://www.w3.org/1999/02/22-rdf-syntax-ns#\"\nxmlns:GSpherical=\"http://ns.google.com/videos/1.0/spherical/\">"

/-- Source constant `SPHERICAL_XML_CONTENTS`. -/
def SPHERICAL_XML_CONTENTS : String :=
  "<GSpherical:Spherical>true</GSpherical:Spherical><GSpherical:Stitched>true</GSpherical:Stitched><GSpherical:StitchingSoftware>Spherical Metadata Tool</GSpherical:StitchingSoftware><GSpherical:ProjectionType>equirectangular</GSpherical:ProjectionType>"

/-- Source constant `SPHERICAL_XML_CONTENTS_TOP_BOTTOM`. -/
def SPHERICAL_XML_CONTENTS_TOP_BOTTOM : String :=
  "<GSpherical:StereoMode>top-bottom</GSpherical:StereoMode>"

/-- Source constant `SPHERICAL_XML_CONTENTS_LEFT_RIGHT`. -/
def SPHERICAL_XML_CONTENTS_LEFT_RIGHT : String :=
  "<GSpherical:StereoMode>left-right</GSpherical:StereoMode>"

/-- Source constant `SPHERICAL_XML_FOOTER`. -/
def SPHERICAL_XML_FOOTER : String := "</rdf:SphericalVideo>"

/-- Source constant `SPHERICAL_TAGS_LIST`: the sixteen recognized tags. -/
def SPHERICAL_TAGS_LIST : List String :=
  ["Spherical", "Stitched", "StitchingSoftware", "ProjectionType",
   "SourceCount", "StereoMode", "InitialViewHeadingDegrees",
   "InitialViewPitchDegrees", "InitialViewRollDegrees", "Timestamp",
   "CroppedAreaImageWidthPixels", "CroppedAreaImageHeightPixels",
   "FullPanoWidthPixels", "FullPanoHeightPixels",
   "CroppedAreaLeftPixels", "CroppedAreaTopPixels"]

/-- Source constant `SPHERICAL_PREFIX` (the braces are part of the string, as
in ElementTree's Clark notation).  Renamed here for technical reasons. -/
def SPHERICAL_NS : String := "\x7bhttp://ns.google.com/videos/1.0/spherical/\x7d"

/-- Source global `SPHERICAL_TAGS`: mapping from namespaced tag to tag name,
built from `SPHERICAL_TAGS_LIST` exactly as the module-level loop does. -/
def SPHERICAL_TAGS : List (String × String) :=
  SPHERICAL_TAGS_LIST.map (fun t => (SPHERICAL_NS ++ t, t))

/-! ## Crop string parsing: model of `re.match(crop_regex, crop)`

The source regex is `^(\d+):(\d+):(\d+):(\d+):(\d+):(\d+)$`: six
colon-separated nonempty runs of ASCII digits spanning the whole string
(Python's `$` also accepts a single trailing newline, which the model
reproduces). -/

/-- Split a character list on a separator character (Python-`split` style:
`n` separators yield `n+1` groups, possibly empty). -/
def splitSep (sep : Char) : List Char → List (List Char)
  | [] => [[]]
  | c :: cs =>
    if c = sep then [] :: splitSep sep cs
    else
      match splitSep sep cs with
      | [] => [[c]]
      | g :: gs => (c :: g) :: gs

/-- A regex group `(\d+)`: nonempty, all ASCII digits. -/
def isDigits (g : List Char) : Bool := !g.isEmpty && g.all Char.isDigit

/-- Value of a digit run, as Python's `int` computes it. -/
def digitsVal (g : List Char) : Nat :=
  g.foldl (fun a c => 10 * a + (c.toNat - 48)) 0

/-- Model of Python's `$` anchor: drop one trailing newline if present. -/
def dropFinalNewline (l : List Char) : List Char :=
  if l.getLast? = some (Char.ofNat 10) then l.dropLast else l

/-- Model of `re.match(crop_regex, crop)` followed by `int` on the six
groups.  Returns the six integers (as Python `int`s, hence `Int`) when the
regex matches, else `none`. -/
def cropRegexMatch (s : String) : Option (Int × Int × Int × Int × Int × Int) :=
  match splitSep ':' (dropFinalNewline s.data) with
  | [g1, g2, g3, g4, g5, g6] =>
    if isDigits g1 && isDigits g2 && isDigits g3 &&
       isDigits g4 && isDigits g5 && isDigits g6 then
      some (Int.ofNat (digitsVal g1), Int.ofNat (digitsVal g2),
            Int.ofNat (digitsVal g3), Int.ofNat (digitsVal g4),
            Int.ofNat (digitsVal g5), Int.ofNat (digitsVal g6))
    else none
  | _ => none

/-- Python `str` of an `int` (used by `"{0}".format(...)` on the parsed crop
integers). -/
def pyStr (i : Int) : String :=
  if i < 0 then "-" ++ Nat.repr i.natAbs else Nat.repr i.toNat

/-- The crop section of the payload: source constant
`SPHERICAL_XML_CONTENTS_CROP_FORMAT` instantiated by `.format` with the six
parsed integers, in the source's field order. -/
def cropContentsXml (w h fw fh l t : Int) : String :=
  "<GSpherical:CroppedAreaImageWidthPixels>" ++ pyStr w ++
  "</GSpherical:CroppedAreaImageWidthPixels>" ++
  "<GSpherical:CroppedAreaImageHeightPixels>" ++ pyStr h ++
  "</GSpherical:CroppedAreaImageHeightPixels>" ++
  "<GSpherical:FullPanoWidthPixels>" ++ pyStr fw ++
  "</GSpherical:FullPanoWidthPixels>" ++
  "<GSpherical:FullPanoHeightPixels>" ++ pyStr fh ++
  "</GSpherical:FullPanoHeightPixels>" ++
  "<GSpherical:CroppedAreaLeftPixels>" ++ pyStr l ++
  "</GSpherical:CroppedAreaLeftPixels>" ++
  "<GSpherical:CroppedAreaTopPixels>" ++ pyStr t ++
  "</GSpherical:CroppedAreaTopPixels>"

/-- The stereo part of `additional_xml` in `generate_spherical_xml`
(source lines 307-312: two independent `if` statements appending to the
accumulator). -/
def stereoAdditionalXml (stereo : Option String) : String :=
  (if stereo = some "top-bottom" then SPHERICAL_XML_CONTENTS_TOP_BOTTOM else "") ++
  (if stereo = some "left-right" then SPHERICAL_XML_CONTENTS_LEFT_RIGHT else "")

/-- The crop block of `generate_spherical_xml` (source lines 315-368):
regex match, the three ordered validation stages, and on success the
formatted crop fragment.  `none` models the `return False` paths. -/
def cropCheckXml (c : String) : Option String :=
  match cropRegexMatch c with
  | none => none
  | some (w, h, fw, fh, l, t) =>
    if fw ≤ 0 ∨ fh ≤ 0 then none
    else if w ≤ 0 ∨ h ≤ 0 ∨ w > fw ∨ h > fh then none
    else if l < 0 ∨ t < 0 ∨ l + w > fw ∨ t + h > fh then none
    else some (cropContentsXml w h fw fh l t)

/-- Embedding of `generate_spherical_xml(stereo=None, crop=None)`
(source lines 305-374).  `none` is Python's `return False`; the error
`print`s are not modelled.  `crop = some ""` is falsy in Python's
`if crop:`, hence skips the crop block exactly like `none`. -/
def generate_spherical_xml (stereo : Option String) (crop : Option String) :
    Option String :=
  match crop with
  | none =>
    some (SPHERICAL_XML_HEADER ++ SPHERICAL_XML_CONTENTS ++
          stereoAdditionalXml stereo ++ SPHERICAL_XML_FOOTER)
  | some c =>
    if c = "" then
      some (SPHERICAL_XML_HEADER ++ SPHERICAL_XML_CONTENTS ++
            stereoAdditionalXml stereo ++ SPHERICAL_XML_FOOTER)
    else
      match cropCheckXml c with
      | none => none
      | some cx =>
        some (SPHERICAL_XML_HEADER ++ SPHERICAL_XML_CONTENTS ++
              stereoAdditionalXml stereo ++ cx ++ SPHERICAL_XML_FOOTER)

set_option maxRecDepth 8192

/-- Every successful `cropRegexMatch` yields six integers that came from
digit runs, hence six `Int.ofNat` values. -/
lemma cropRegexMatch_shape (s : String) (r : Int × Int × Int × Int × Int × Int)
    (hm : cropRegexMatch s = some r) :
    ∃ a b c d e f : Nat,
      r = ((a : Int), (b : Int), (c : Int), (d : Int), (e : Int), (f : Int)) := by
  unfold cropRegexMatch at hm
  split at hm
  · split at hm
    · exact ⟨_, _, _, _, _, _, (Option.some.inj hm).symm⟩
    · cases hm
  · cases hm

/-- The six integers parsed from a crop string are all non-negative. -/
lemma cropRegexMatch_nonneg (s : String) (w h fw fh l t : Int)
    (hm : cropRegexMatch s = some (w, h, fw, fh, l, t)) :
    0 ≤ w ∧ 0 ≤ h ∧ 0 ≤ fw ∧ 0 ≤ fh ∧ 0 ≤ l ∧ 0 ≤ t := by
  obtain ⟨a, b, c, d, e, f, hr⟩ := cropRegexMatch_shape s _ hm
  obtain ⟨rfl, rfl, rfl, rfl, rfl, rfl⟩ := by
    simpa [Prod.ext_iff] using hr
  refine ⟨Int.ofNat_nonneg a, Int.ofNat_nonneg b, Int.ofNat_nonneg c,
          Int.ofNat_nonneg d, Int.ofNat_nonneg e, Int.ofNat_nonneg f⟩

/-- The ordered crop validation of `generate_spherical_xml`, stated as one
predicate: full dimensions positive; cropped dimensions positive and at most
the full ones; offset plus cropped extent at most the full extent. -/
def validCrop (w h fw fh l t : Int) : Prop :=
  0 < fw ∧ 0 < fh ∧ 0 < w ∧ 0 < h ∧ w ≤ fw ∧ h ≤ fh ∧ l + w ≤ fw ∧ t + h ≤ fh

instance instDecidableValidCrop (w h fw fh l t : Int) :
    Decidable (validCrop w h fw fh l t) := by
  unfold validCrop
  exact inferInstance

/-- C4: for a crop string accepted by the crop regex (six colon-separated
integers), `generate_spherical_xml` returns its failure value exactly when
the ordered validation fails; concretely, `4000:2000:8000:4000:2000:1000`
succeeds while `8001:2000:8000:4000:0:0`, `4000:2000:8000:4000:4500:0` and
`0:2000:8000:4000:0:0` each fail. -/
theorem spatial_c4_crop_validation :
    (∀ (st : Option String) (s : String) (w h fw fh l t : Int),
        cropRegexMatch s = some (w, h, fw, fh, l, t) →
        (generate_spherical_xml st (some s) = none ↔ ¬ validCrop w h fw fh l t)) ∧
    (generate_spherical_xml none (some "4000:2000:8000:4000:2000:1000")).isSome = true ∧
    generate_spherical_xml none (some "8001:2000:8000:4000:0:0") = none ∧
    generate_spherical_xml none (some "4000:2000:8000:4000:4500:0") = none ∧
    generate_spherical_xml none (some "0:2000:8000:4000:0:0") = none := by
  refine ⟨?_, by decide, by decide, by decide, by decide⟩
  intro st s w h fw fh l t hm
  obtain ⟨hw, hh, hfw, hfh, hl, ht⟩ := cropRegexMatch_nonneg s w h fw fh l t hm
  have hs : s ≠ "" := by
    intro he
    rw [he] at hm
    rw [show cropRegexMatch "" = none from by decide] at hm
    cases hm
  have e2 : cropCheckXml s =
      (if fw ≤ 0 ∨ fh ≤ 0 then none
       else if w ≤ 0 ∨ h ≤ 0 ∨ w > fw ∨ h > fh then none
       else if l < 0 ∨ t < 0 ∨ l + w > fw ∨ t + h > fh then none
       else some (cropContentsXml w h fw fh l t)) := by
    unfold cropCheckXml
    rw [hm]
  have e3 : generate_spherical_xml st (some s) =
      (match cropCheckXml s with
       | none => none
       | some cx =>
         some (SPHERICAL_XML_HEADER ++ SPHERICAL_XML_CONTENTS ++
               stereoAdditionalXml st ++ cx ++ SPHERICAL_XML_FOOTER)) := by
    simp only [generate_spherical_xml]
    rw [if_neg hs]
  rw [e3, e2]
  split_ifs with h1 h2 h3
  · have hv : ¬ validCrop w h fw fh l t := by unfold validCrop; omega
    simp [hv]
  · have hv : ¬ validCrop w h fw fh l t := by unfold validCrop; omega
    simp [hv]
  · have hv : ¬ validCrop w h fw fh l t := by unfold validCrop; omega
    simp [hv]
  · have hv : validCrop w h fw fh l t := by unfold validCrop; omega
    simp [hv]

/-- Witness for C4 at a concrete input: offset 3 plus width 1 exceeds full
width 2, so generation fails. -/
theorem spatial_c4_crop_validation_witness :
    generate_spherical_xml none (some "1:1:2:2:3:0") = none := by
  have h := spatial_c4_crop_validation.1 none "1:1:2:2:3:0" 1 1 2 2 3 0 (by decide)
  rw [h]
  decide

/-- C10: the crop regex only produces non-negative integers, so the
negative-offset disjuncts of the third validation stage are unreachable:
that stage fails exactly when an offset plus the cropped extent exceeds the
full extent. -/
theorem spatial_c10_offsets_nonneg :
    ∀ (s : String) (w h fw fh l t : Int),
      cropRegexMatch s = some (w, h, fw, fh, l, t) →
      0 ≤ l ∧ 0 ≤ t ∧
      (((l < 0 ∨ t < 0) ∨ l + w > fw ∨ t + h > fh) ↔ (l + w > fw ∨ t + h > fh)) := by
  intro s w h fw fh l t hm
  obtain ⟨_, _, _, _, hl, ht⟩ := cropRegexMatch_nonneg s w h fw fh l t hm
  exact ⟨hl, ht, by omega⟩

/-- Witness for C10 at a concrete input. -/
theorem spatial_c10_offsets_nonneg_witness :
    0 ≤ (5 : Int) ∧ 0 ≤ (6 : Int) ∧
      ((((5 : Int) < 0 ∨ (6 : Int) < 0) ∨ (5 : Int) + 1 > 3 ∨ (6 : Int) + 2 > 4) ↔
        ((5 : Int) + 1 > 3 ∨ (6 : Int) + 2 > 4)) :=
  spatial_c10_offsets_nonneg "1:2:3:4:5:6" 1 2 3 4 5 6 (by decide)

/-- Boolean test: `pat` begins `s`. -/
def isPre : List Char → List Char → Bool
  | [], _ => true
  | _ :: _, [] => false
  | p :: ps, c :: cs => p == c && isPre ps cs

/-- Boolean test: `pat` occurs somewhere in the list. -/
def containsSeq (pat : List Char) : List Char → Bool
  | [] => isPre pat []
  | c :: cs => isPre pat (c :: cs) || containsSeq pat cs

/-- Boolean test: `pat` is a contiguous substring of `s` (model of Python's
`in` / `str.find(...) != -1`). -/
def hasSubstr (s pat : String) : Bool := containsSeq pat.data s.data

/-- C9: `generate_spherical_xml` emits a `StereoMode` element exactly when
the stereo argument is `"top-bottom"` or `"left-right"` (with the matching
value); any other stereo value emits no `StereoMode` element and still
yields a successful XML string. -/
theorem spatial_c9_stereo_emission :
    ∀ st : Option String,
      (generate_spherical_xml st none).isSome = true ∧
      hasSubstr ((generate_spherical_xml st none).getD "") "<GSpherical:StereoMode>"
        = (st == some "top-bottom" || st == some "left-right") ∧
      hasSubstr ((generate_spherical_xml st none).getD "") SPHERICAL_XML_CONTENTS_TOP_BOTTOM
        = (st == some "top-bottom") ∧
      hasSubstr ((generate_spherical_xml st none).getD "") SPHERICAL_XML_CONTENTS_LEFT_RIGHT
        = (st == some "left-right") := by
  intro st
  by_cases h1 : st = some "top-bottom"
  · subst h1
    exact ⟨by decide, by decide, by decide, by decide⟩
  · by_cases h2 : st = some "left-right"
    · subst h2
      exact ⟨by decide, by decide, by decide, by decide⟩
    · have e0 : stereoAdditionalXml st = "" ++ "" := by
        unfold stereoAdditionalXml
        rw [if_neg h1, if_neg h2]
      have e : generate_spherical_xml st none =
          some (SPHERICAL_XML_HEADER ++ SPHERICAL_XML_CONTENTS ++ ("" ++ "") ++
                SPHERICAL_XML_FOOTER) := by
        simp only [generate_spherical_xml]
        rw [e0]
      have b1 : (st == some "top-bottom") = false := beq_eq_false_iff_ne.mpr h1
      have b2 : (st == some "left-right") = false := beq_eq_false_iff_ne.mpr h2
      rw [e, b1, b2]
      exact ⟨rfl, by decide, by decide, by decide⟩

/-! ## Model of the external strict XML parser

`parse_spherical_xml` calls `xml.etree.ElementTree.XML`, an external
library.  Modelled from the spec: the strict parse accepts exactly the
fragment of XML this tool reads and writes — a document headed by the
exact serialized root opening tag the tool emits (`rdf:SphericalVideo`
with its two namespace declarations), followed by a flat sequence of
attribute-free child elements carrying text content, closed by the root
closing tag.  Any other document is modelled as a strict parse failure.
Child tags are resolved to ElementTree's Clark notation: a
`GSpherical:`-prefixed tag becomes the braced GSpherical namespace URI
followed by the local name. -/

/-- The serialized root opening tag (with namespace declarations), as a
character list. -/
def HEADER_D : List Char := SPHERICAL_XML_HEADER.data

/-- The root closing tag, as a character list. -/
def FOOTER_D : List Char := SPHERICAL_XML_FOOTER.data

/-- Take characters up to (excluding) the first occurrence of `c`;
also return the remainder (starting with `c` if found). -/
def spanNeq (c : Char) : List Char → List Char × List Char
  | [] => ([], [])
  | x :: xs =>
    if x = c then ([], x :: xs)
    else
      let r := spanNeq c xs
      (x :: r.1, r.2)

/-- Strip an expected literal from the front of a list, returning the
remainder on success. -/
def stripPre : List Char → List Char → Option (List Char)
  | [], s => some s
  | _ :: _, [] => none
  | p :: ps, c :: cs => if p = c then stripPre ps cs else none

/-- Parse one attribute-free element `<name>text</name>` at the front of
the input; return `((name, text), remainder)`. -/
def parseOneChild (s : List Char) : Option ((List Char × List Char) × List Char) :=
  match s with
  | '<' :: t =>
    match spanNeq '>' t with
    | (nm, '>' :: r2) =>
      match spanNeq '<' r2 with
      | (txt, '<' :: '/' :: r4) =>
        match stripPre nm r4 with
        | some ('>' :: r5) => some ((nm, txt), r5)
        | _ => none
      | _ => none
    | _ => none
  | _ => none

/-- Parse a sequence of child elements terminated by the root closing tag,
with an explicit fuel bound (one unit per element). -/
def parseChildrenF : Nat → List Char → Option (List (List Char × List Char))
  | 0, _ => none
  | fuel + 1, s =>
    if s = FOOTER_D then some []
    else
      match parseOneChild s with
      | some (kv, rest) =>
        match parseChildrenF fuel rest with
        | some kvs => some (kv :: kvs)
        | none => none
      | none => none

/-- Parse the child-element sequence; the input length plus one is always
enough fuel because every element consumes at least one character. -/
def parseChildren (s : List Char) : Option (List (List Char × List Char)) :=
  parseChildrenF (s.length + 1) s

/-- ElementTree namespace resolution for the accepted documents: a
`GSpherical:`-prefixed tag resolves to the braced namespace URI plus local
name; other tags are kept verbatim. -/
def resolveTag (nm : String) : String :=
  match stripPre ("GSpherical:".data) nm.data with
  | some rest => SPHERICAL_NS ++ String.mk rest
  | none => nm

/-- Model of `xml.etree.ElementTree.XML` on character lists: the root's
direct children as `(resolved tag, text)` pairs, or `none` for a strict
parse failure. -/
def etXMLD (s : List Char) : Option (List (String × String)) :=
  match stripPre HEADER_D s with
  | some rest =>
    match parseChildren rest with
    | some kvs => some (kvs.map (fun p => (resolveTag (String.mk p.1), String.mk p.2)))
    | none => none
  | none => none

/-- Model of `xml.etree.ElementTree.XML` on strings. -/
def etXML (s : String) : Option (List (String × String)) := etXMLD s.data

/-- Outcome of the Python function `parse_spherical_xml`: a returned
dictionary, a bare `return` (Python `None`), or an uncaught exception. -/
inductive PResult where
  | ok (d : List (String × String))
  | noneResult
  | exn (msg : String)
deriving DecidableEq

/-- Python `dict` assignment `d[k] = v`: overwrite in place if the key
exists, else append. -/
def dictInsert : List (String × String) → String → String → List (String × String)
  | [], k, v => [(k, v)]
  | (k0, v0) :: rest, k, v =>
    if k0 = k then (k0, v) :: rest else (k0, v0) :: dictInsert rest k v

/-- Python `dict` lookup (first and only binding of a key). -/
def dLookup : List (String × String) → String → Option String
  | [], _ => none
  | (k0, v0) :: rest, k => if k0 = k then some v0 else dLookup rest k

/-- The child loop of `parse_spherical_xml` (source lines 178-189).
A recognized namespaced tag records `(tag name, text)` into the
dictionary.  An unrecognized tag reaches source line 186, which evaluates
the undefined global `spherical_prefix` (the module only defines
`SPHERICAL_PREFIX`), so Python raises `NameError` there. -/
def processChildren : List (String × String) → List (String × String) → PResult
  | [], d => .ok d
  | (tag, txt) :: rest, d =>
    match dLookup SPHERICAL_TAGS tag with
    | some localName => processChildren rest (dictInsert d localName txt)
    | none => .exn "NameError: global name spherical_prefix is not defined"

/-- Embedding of `parse_spherical_xml(contents, console)` (source lines
153-190).  If the strict parse fails and the contents contain
`<rdf:SphericalVideo`, source line 169 evaluates the undefined global
`rdf_prefix` (the module only defines `RDF_PREFIX`), so Python raises
`NameError` before any repair happens; that exception is not an
`ElementTree.ParseError`, so it escapes the function.  If the root tag is
absent, the parse is retried on the unchanged contents; a second failure
is reported to the console and the function returns `None`
(`.noneResult`); were the retry to succeed, source line 171 would likewise
evaluate `rdf_prefix` and raise. -/
def parse_spherical_xml (contents : String) : PResult :=
  match etXML contents with
  | some kvs => processChildren kvs []
  | none =>
    if hasSubstr contents "<rdf:SphericalVideo" then
      .exn "NameError: global name rdf_prefix is not defined"
    else
      match etXML contents with
      | some _ => .exn "NameError: global name rdf_prefix is not defined"
      | none => .noneResult

/-- C2's failing input: a spherical XML document whose only defect is the
missing `xmlns:rdf` declaration on the `rdf:SphericalVideo` root. -/
def c2BrokenHeaderDoc : String :=
  "<?xml version=\"1.0\"?><rdf:SphericalVideo xmlns:GSpherical=\"http://ns.google.com/videos/1.0/spherical/\"><GSpherical:Spherical>true</GSpherical:Spherical></rdf:SphericalVideo>"

/-- C2: the claim says the repair path splices the RDF declaration and the
parse succeeds with no exception escaping.  In the code, the repair path
(source line 169) evaluates the undefined global `rdf_prefix` — the module
defines only `RDF_PREFIX` — so Python raises `NameError` instead: on the
concrete input whose only defect is the missing `xmlns:rdf` declaration,
the strict parse fails, the root tag is found, and the function raises. -/
theorem spatial_c2_repair_raises_nameerror :
    etXML c2BrokenHeaderDoc = none ∧
    hasSubstr c2BrokenHeaderDoc "<rdf:SphericalVideo" = true ∧
    parse_spherical_xml c2BrokenHeaderDoc =
      .exn "NameError: global name rdf_prefix is not defined" := by
  exact ⟨by decide, by decide, by decide⟩

/-- C3's input from the spec: one recognized tag `Spherical=true` and one
unrecognized tag `Foo=bar`. -/
def c3UnknownTagDoc : String :=
  SPHERICAL_XML_HEADER ++
  "<GSpherical:Spherical>true</GSpherical:Spherical><Foo>bar</Foo>" ++
  SPHERICAL_XML_FOOTER

/-- C3: the claim says unrecognized children are discarded and the mapping
`[Spherical = true]` is returned without any exception.  In the code, the
unknown-tag branch (source line 186) evaluates the undefined global
`spherical_prefix` — the module defines only `SPHERICAL_PREFIX` — so on
the spec's own example document Python raises `NameError` once it reaches
the `Foo` child, and no mapping is returned. -/
theorem spatial_c3_unknown_tag_raises_nameerror :
    etXML c3UnknownTagDoc =
      some [(SPHERICAL_NS ++ "Spherical", "true"), ("Foo", "bar")] ∧
    parse_spherical_xml c3UnknownTagDoc =
      .exn "NameError: global name spherical_prefix is not defined" := by
  exact ⟨by decide, by decide⟩

/-! ## Parser evaluation lemmas (used for the generate/parse round trip) -/

/-- Serialization of one attribute-free element, on character lists. -/
def elemStrD (nm txt : List Char) : List Char :=
  '<' :: (nm ++ '>' :: (txt ++ '<' :: '/' :: (nm ++ ['>'])))

/-- Serialization of a child-element sequence. -/
def concatElemsD : List (List Char × List Char) → List Char
  | [] => []
  | (nm, txt) :: rest => elemStrD nm txt ++ concatElemsD rest

/-- Well-formedness of one `(name, text)` pair for serialization: nonempty
name not starting with a slash and free of the name delimiter, text free of
the element-open delimiter. -/
def GoodKV (p : List Char × List Char) : Prop :=
  p.1 ≠ [] ∧ p.1.head? ≠ some '/' ∧ '>' ∉ p.1 ∧ '<' ∉ p.2

lemma stringMk_data (s : String) : String.mk s.data = s := rfl

lemma spanNeq_not_mem {c : Char} {a : List Char} (b : List Char) (h : c ∉ a) :
    spanNeq c (a ++ c :: b) = (a, c :: b) := by
  induction a with
  | nil => simp [spanNeq]
  | cons x xs ih =>
    have hx : x ≠ c := by
      intro he
      exact h (he ▸ List.mem_cons_self x xs)
    have hxs : c ∉ xs := fun hm => h (List.mem_cons_of_mem _ hm)
    simp [spanNeq, hx, ih hxs]

lemma stripPre_self (p r : List Char) : stripPre p (p ++ r) = some r := by
  induction p with
  | nil => rfl
  | cons x xs ih => simp [stripPre, ih]

lemma parseOneChild_elem (nm txt rest : List Char) (h1 : '>' ∉ nm)
    (h2 : '<' ∉ txt) :
    parseOneChild (elemStrD nm txt ++ rest) = some ((nm, txt), rest) := by
  have e : elemStrD nm txt ++ rest =
      '<' :: (nm ++ '>' :: (txt ++ '<' :: '/' :: (nm ++ '>' :: rest))) := by
    simp [elemStrD]
  rw [e]
  have s1 := spanNeq_not_mem (txt ++ '<' :: '/' :: (nm ++ '>' :: rest)) h1
  have s2 := spanNeq_not_mem ('/' :: (nm ++ '>' :: rest)) h2
  have s3 := stripPre_self nm ('>' :: rest)
  simp [parseOneChild, s1, s2, s3]

lemma elem_ne_footer (nm txt rest : List Char) (c : Char) (cs : List Char)
    (hcc : nm = c :: cs) (hc : c ≠ '/') :
    elemStrD nm txt ++ rest ≠ FOOTER_D := by
  subst hcc
  intro he
  have h1 : (elemStrD (c :: cs) txt ++ rest).get? 1 = some c := by
    simp [elemStrD]
  rw [he] at h1
  have h2 : FOOTER_D.get? 1 = some '/' := by decide
  rw [h2] at h1
  exact hc (Option.some.inj h1).symm

lemma parseChildrenF_concat :
    ∀ (kvs : List (List Char × List Char)) (fuel : Nat),
      kvs.length < fuel → (∀ p ∈ kvs, GoodKV p) →
      parseChildrenF fuel (concatElemsD kvs ++ FOOTER_D) = some kvs := by
  intro kvs
  induction kvs with
  | nil =>
    intro fuel hf _
    match fuel, hf with
    | f + 1, _ => simp [concatElemsD, parseChildrenF]
  | cons p rest ih =>
    intro fuel hf hg
    obtain ⟨nm, txt⟩ := p
    match fuel, hf with
    | f + 1, hf =>
      obtain ⟨hne, hh, hgt, hlt⟩ := hg _ (List.mem_cons_self _ _)
      obtain ⟨c, cs, hcc⟩ : ∃ c cs, nm = c :: cs := by
        cases nm with
        | nil => exact absurd rfl hne
        | cons c cs => exact ⟨c, cs, rfl⟩
      have hc : c ≠ '/' := by
        intro he
        apply hh
        rw [hcc, he]
        rfl
      have harr : concatElemsD ((nm, txt) :: rest) ++ FOOTER_D =
          elemStrD nm txt ++ (concatElemsD rest ++ FOOTER_D) := by
        simp [concatElemsD, List.append_assoc]
      rw [harr]
      have hnef := elem_ne_footer nm txt (concatElemsD rest ++ FOOTER_D) c cs hcc hc
      have hpo := parseOneChild_elem nm txt (concatElemsD rest ++ FOOTER_D) hgt hlt
      have hrest : ∀ q ∈ rest, GoodKV q := fun q hq => hg q (List.mem_cons_of_mem _ hq)
      have hlen : rest.length < f := by
        simp only [List.length_cons] at hf
        omega
      simp [parseChildrenF, hnef, hpo, ih f hlen hrest]

lemma concatElemsD_length_ge (kvs : List (List Char × List Char)) :
    kvs.length ≤ (concatElemsD kvs).length := by
  induction kvs with
  | nil => simp [concatElemsD]
  | cons p rest ih =>
    obtain ⟨nm, txt⟩ := p
    simp [concatElemsD, elemStrD, List.length_append]
    omega

lemma parseChildren_concat (kvs : List (List Char × List Char))
    (hg : ∀ p ∈ kvs, GoodKV p) :
    parseChildren (concatElemsD kvs ++ FOOTER_D) = some kvs := by
  unfold parseChildren
  apply parseChildrenF_concat _ _ _ hg
  have := concatElemsD_length_ge kvs
  simp only [List.length_append]
  omega

lemma etXMLD_concat (kvs : List (List Char × List Char))
    (hg : ∀ p ∈ kvs, GoodKV p) :
    etXMLD (HEADER_D ++ (concatElemsD kvs ++ FOOTER_D)) =
      some (kvs.map (fun p => (resolveTag (String.mk p.1), String.mk p.2))) := by
  unfold etXMLD
  simp [stripPre_self, parseChildren_concat kvs hg]

/-! ## Digit strings: the formatted crop values contain no markup characters -/

lemma digitChar_isDigit (k : Nat) (h : k < 10) : (Nat.digitChar k).isDigit = true := by
  interval_cases k <;> decide

lemma toDigitsCore_digits :
    ∀ (fuel n : Nat) (ds : List Char), (∀ c ∈ ds, c.isDigit = true) →
      ∀ c ∈ Nat.toDigitsCore 10 fuel n ds, c.isDigit = true := by
  intro fuel
  induction fuel with
  | zero =>
    intro n ds hds c hc
    simp only [Nat.toDigitsCore] at hc
    exact hds c hc
  | succ f ih =>
    intro n ds hds c hc
    simp only [Nat.toDigitsCore] at hc
    have hstep : ∀ x ∈ Nat.digitChar (n % 10) :: ds, x.isDigit = true := by
      intro x hx
      rcases List.mem_cons.mp hx with rfl | hx2
      · exact digitChar_isDigit _ (Nat.mod_lt _ (by decide))
      · exact hds x hx2
    split at hc
    · exact hstep c hc
    · exact ih (n / 10) (Nat.digitChar (n % 10) :: ds) hstep c hc

lemma repr_all_digits (n : Nat) : ∀ c ∈ (Nat.repr n).data, c.isDigit = true := by
  intro c hc
  have he : (Nat.repr n).data = Nat.toDigitsCore 10 (n + 1) n [] := rfl
  rw [he] at hc
  exact toDigitsCore_digits (n + 1) n [] (by intro x hx; cases hx) c hc

lemma not_lt_mem_repr (n : Nat) : '<' ∉ (Nat.repr n).data := by
  intro h
  have hd := repr_all_digits n _ h
  exact absurd hd (by decide)

lemma pyStr_ofNat (n : Nat) : pyStr (n : Int) = Nat.repr n := by
  have h0 : ¬((n : Int) < 0) := not_lt.mpr (Int.natCast_nonneg n)
  rw [pyStr, if_neg h0, Int.toNat_natCast]

lemma not_lt_mem_pyStr (i : Int) (h : 0 ≤ i) : '<' ∉ (pyStr i).data := by
  obtain ⟨n, rfl⟩ := Int.eq_ofNat_of_zero_le h
  rw [pyStr_ofNat]
  exact not_lt_mem_repr n

/-! ## The generated payload as a serialized child-element sequence -/

/-- The four always-present children of a generated document. -/
def baseKvsD : List (List Char × List Char) :=
  [("GSpherical:Spherical".data, "true".data),
   ("GSpherical:Stitched".data, "true".data),
   ("GSpherical:StitchingSoftware".data, "Spherical Metadata Tool".data),
   ("GSpherical:ProjectionType".data, "equirectangular".data)]

/-- The stereo child of a generated document, as a kv list. -/
def stereoKvsD (st : Option String) : List (List Char × List Char) :=
  if st = some "top-bottom" then [("GSpherical:StereoMode".data, "top-bottom".data)]
  else if st = some "left-right" then [("GSpherical:StereoMode".data, "left-right".data)]
  else []

/-- The six crop children of a generated document, as a kv list. -/
def cropKvsD (w h fw fh l t : Int) : List (List Char × List Char) :=
  [("GSpherical:CroppedAreaImageWidthPixels".data, (pyStr w).data),
   ("GSpherical:CroppedAreaImageHeightPixels".data, (pyStr h).data),
   ("GSpherical:FullPanoWidthPixels".data, (pyStr fw).data),
   ("GSpherical:FullPanoHeightPixels".data, (pyStr fh).data),
   ("GSpherical:CroppedAreaLeftPixels".data, (pyStr l).data),
   ("GSpherical:CroppedAreaTopPixels".data, (pyStr t).data)]

lemma concatElemsD_append (a b : List (List Char × List Char)) :
    concatElemsD (a ++ b) = concatElemsD a ++ concatElemsD b := by
  induction a with
  | nil => simp [concatElemsD]
  | cons p rest ih =>
    obtain ⟨nm, txt⟩ := p
    simp [concatElemsD, ih, List.append_assoc]

lemma contents_data : SPHERICAL_XML_CONTENTS.data = concatElemsD baseKvsD := by
  decide

lemma stereo_data (st : Option String) :
    (stereoAdditionalXml st).data = concatElemsD (stereoKvsD st) := by
  unfold stereoAdditionalXml stereoKvsD
  by_cases h1 : st = some "top-bottom"
  · subst h1
    decide
  · by_cases h2 : st = some "left-right"
    · subst h2
      decide
    · rw [if_neg h1, if_neg h2, if_neg h1, if_neg h2]
      decide

lemma crop_data (w h fw fh l t : Int) :
    (cropContentsXml w h fw fh l t).data =
      concatElemsD (cropKvsD w h fw fh l t) := by
  have o1 : ("<GSpherical:CroppedAreaImageWidthPixels>" : String).data =
      '<' :: ("GSpherical:CroppedAreaImageWidthPixels".data ++ ['>']) := by decide
  have c1 : ("</GSpherical:CroppedAreaImageWidthPixels>" : String).data =
      '<' :: '/' :: ("GSpherical:CroppedAreaImageWidthPixels".data ++ ['>']) := by decide
  have o2 : ("<GSpherical:CroppedAreaImageHeightPixels>" : String).data =
      '<' :: ("GSpherical:CroppedAreaImageHeightPixels".data ++ ['>']) := by decide
  have c2 : ("</GSpherical:CroppedAreaImageHeightPixels>" : String).data =
      '<' :: '/' :: ("GSpherical:CroppedAreaImageHeightPixels".data ++ ['>']) := by decide
  have o3 : ("<GSpherical:FullPanoWidthPixels>" : String).data =
      '<' :: ("GSpherical:FullPanoWidthPixels".data ++ ['>']) := by decide
  have c3 : ("</GSpherical:FullPanoWidthPixels>" : String).data =
      '<' :: '/' :: ("GSpherical:FullPanoWidthPixels".data ++ ['>']) := by decide
  have o4 : ("<GSpherical:FullPanoHeightPixels>" : String).data =
      '<' :: ("GSpherical:FullPanoHeightPixels".data ++ ['>']) := by decide
  have c4 : ("</GSpherical:FullPanoHeightPixels>" : String).data =
      '<' :: '/' :: ("GSpherical:FullPanoHeightPixels".data ++ ['>']) := by decide
  have o5 : ("<GSpherical:CroppedAreaLeftPixels>" : String).data =
      '<' :: ("GSpherical:CroppedAreaLeftPixels".data ++ ['>']) := by decide
  have c5 : ("</GSpherical:CroppedAreaLeftPixels>" : String).data =
      '<' :: '/' :: ("GSpherical:CroppedAreaLeftPixels".data ++ ['>']) := by decide
  have o6 : ("<GSpherical:CroppedAreaTopPixels>" : String).data =
      '<' :: ("GSpherical:CroppedAreaTopPixels".data ++ ['>']) := by decide
  have c6 : ("</GSpherical:CroppedAreaTopPixels>" : String).data =
      '<' :: '/' :: ("GSpherical:CroppedAreaTopPixels".data ++ ['>']) := by decide
  simp [cropContentsXml, cropKvsD, concatElemsD, elemStrD,
        o1, c1, o2, c2, o3, c3, o4, c4, o5, c5, o6, c6, List.append_assoc]

instance instDecidableGoodKV (p : List Char × List Char) : Decidable (GoodKV p) := by
  unfold GoodKV
  exact inferInstance

lemma goodKV_base : ∀ p ∈ baseKvsD, GoodKV p := by decide

lemma goodKV_stereo (st : Option String) : ∀ p ∈ stereoKvsD st, GoodKV p := by
  unfold stereoKvsD
  split_ifs <;> decide

lemma goodKV_mk (nm txt : List Char) (h1 : nm ≠ []) (h2 : nm.head? ≠ some '/')
    (h3 : '>' ∉ nm) (h4 : '<' ∉ txt) : GoodKV (nm, txt) :=
  ⟨h1, h2, h3, h4⟩

lemma goodKV_crop (w h fw fh l t : Int) (hw : 0 ≤ w) (hh : 0 ≤ h)
    (hfw : 0 ≤ fw) (hfh : 0 ≤ fh) (hl : 0 ≤ l) (ht : 0 ≤ t) :
    ∀ p ∈ cropKvsD w h fw fh l t, GoodKV p := by
  intro p hp
  simp only [cropKvsD, List.mem_cons, List.not_mem_nil, or_false] at hp
  rcases hp with rfl | rfl | rfl | rfl | rfl | rfl
  · exact goodKV_mk _ _ (by decide) (by decide) (by decide) (not_lt_mem_pyStr w hw)
  · exact goodKV_mk _ _ (by decide) (by decide) (by decide) (not_lt_mem_pyStr h hh)
  · exact goodKV_mk _ _ (by decide) (by decide) (by decide) (not_lt_mem_pyStr fw hfw)
  · exact goodKV_mk _ _ (by decide) (by decide) (by decide) (not_lt_mem_pyStr fh hfh)
  · exact goodKV_mk _ _ (by decide) (by decide) (by decide) (not_lt_mem_pyStr l hl)
  · exact goodKV_mk _ _ (by decide) (by decide) (by decide) (not_lt_mem_pyStr t ht)

lemma parse_of_concat (kvs : List (List Char × List Char))
    (hg : ∀ p ∈ kvs, GoodKV p) (x : String)
    (hx : x.data = HEADER_D ++ (concatElemsD kvs ++ FOOTER_D)) :
    parse_spherical_xml x =
      processChildren
        (kvs.map (fun p => (resolveTag (String.mk p.1), String.mk p.2))) [] := by
  have hpar : etXML x =
      some (kvs.map (fun p => (resolveTag (String.mk p.1), String.mk p.2))) := by
    show etXMLD x.data = _
    rw [hx]
    exact etXMLD_concat kvs hg
  simp [parse_spherical_xml, hpar]

/-- C5: for every valid input pair (stereo mode among `top-bottom`,
`left-right`, or absent; crop string passing validation, or absent),
parsing the XML produced by `generate_spherical_xml` succeeds and yields a
mapping whose `StereoMode` entry equals the given stereo mode (absent when
no mode was given) and whose six crop entries are the decimal string forms
of the six parsed integers (absent when no crop was given). -/
theorem spatial_c5_generate_parse_roundtrip :
    (∀ (st : Option String),
        (st = none ∨ st = some "top-bottom" ∨ st = some "left-right") →
        ∀ (s : String) (w h fw fh l t : Int),
          cropRegexMatch s = some (w, h, fw, fh, l, t) →
          validCrop w h fw fh l t →
          ∃ x d, generate_spherical_xml st (some s) = some x ∧
            parse_spherical_xml x = PResult.ok d ∧
            dLookup d "StereoMode" = st ∧
            dLookup d "CroppedAreaImageWidthPixels" = some (pyStr w) ∧
            dLookup d "CroppedAreaImageHeightPixels" = some (pyStr h) ∧
            dLookup d "FullPanoWidthPixels" = some (pyStr fw) ∧
            dLookup d "FullPanoHeightPixels" = some (pyStr fh) ∧
            dLookup d "CroppedAreaLeftPixels" = some (pyStr l) ∧
            dLookup d "CroppedAreaTopPixels" = some (pyStr t)) ∧
    (∀ (st : Option String),
        (st = none ∨ st = some "top-bottom" ∨ st = some "left-right") →
        ∃ x d, generate_spherical_xml st none = some x ∧
          parse_spherical_xml x = PResult.ok d ∧
          dLookup d "StereoMode" = st ∧
          dLookup d "CroppedAreaImageWidthPixels" = none) := by
  constructor
  · intro st hst s w h fw fh l t hm hv
    obtain ⟨hw, hh, hfw, hfh, hl, ht⟩ := cropRegexMatch_nonneg s w h fw fh l t hm
    have hv2 := hv
    unfold validCrop at hv2
    obtain ⟨v1, v2, v3, v4, v5, v6, v7, v8⟩ := hv2
    have hs : s ≠ "" := by
      intro he
      rw [he] at hm
      rw [show cropRegexMatch "" = none from by decide] at hm
      cases hm
    have e2a : cropCheckXml s =
        (if fw ≤ 0 ∨ fh ≤ 0 then none
         else if w ≤ 0 ∨ h ≤ 0 ∨ w > fw ∨ h > fh then none
         else if l < 0 ∨ t < 0 ∨ l + w > fw ∨ t + h > fh then none
         else some (cropContentsXml w h fw fh l t)) := by
      unfold cropCheckXml
      rw [hm]
    have e2 : cropCheckXml s = some (cropContentsXml w h fw fh l t) := by
      rw [e2a, if_neg (by omega), if_neg (by omega), if_neg (by omega)]
    have hgen : generate_spherical_xml st (some s) =
        some (SPHERICAL_XML_HEADER ++ SPHERICAL_XML_CONTENTS ++
              stereoAdditionalXml st ++ cropContentsXml w h fw fh l t ++
              SPHERICAL_XML_FOOTER) := by
      simp only [generate_spherical_xml]
      rw [if_neg hs, e2]
    have hdata : (SPHERICAL_XML_HEADER ++ SPHERICAL_XML_CONTENTS ++
        stereoAdditionalXml st ++ cropContentsXml w h fw fh l t ++
        SPHERICAL_XML_FOOTER).data =
        HEADER_D ++
          (concatElemsD (baseKvsD ++ stereoKvsD st ++ cropKvsD w h fw fh l t) ++
            FOOTER_D) := by
      simp [contents_data, stereo_data, crop_data, concatElemsD_append,
            HEADER_D, FOOTER_D, List.append_assoc]
    have hgood : ∀ p ∈ baseKvsD ++ stereoKvsD st ++ cropKvsD w h fw fh l t,
        GoodKV p := by
      intro p hp
      rcases List.mem_append.mp hp with hp1 | hp2
      · rcases List.mem_append.mp hp1 with hp3 | hp4
        · exact goodKV_base p hp3
        · exact goodKV_stereo st p hp4
      · exact goodKV_crop w h fw fh l t hw hh hfw hfh hl ht p hp2
    have hps := parse_of_concat _ hgood _ hdata
    rcases hst with rfl | rfl | rfl
    · exact ⟨_,
        [("Spherical", "true"), ("Stitched", "true"),
         ("StitchingSoftware", "Spherical Metadata Tool"),
         ("ProjectionType", "equirectangular"),
         ("CroppedAreaImageWidthPixels", pyStr w),
         ("CroppedAreaImageHeightPixels", pyStr h),
         ("FullPanoWidthPixels", pyStr fw),
         ("FullPanoHeightPixels", pyStr fh),
         ("CroppedAreaLeftPixels", pyStr l),
         ("CroppedAreaTopPixels", pyStr t)],
        hgen, by rw [hps]; rfl, rfl, rfl, rfl, rfl, rfl, rfl, rfl⟩
    · exact ⟨_,
        [("Spherical", "true"), ("Stitched", "true"),
         ("StitchingSoftware", "Spherical Metadata Tool"),
         ("ProjectionType", "equirectangular"),
         ("StereoMode", "top-bottom"),
         ("CroppedAreaImageWidthPixels", pyStr w),
         ("CroppedAreaImageHeightPixels", pyStr h),
         ("FullPanoWidthPixels", pyStr fw),
         ("FullPanoHeightPixels", pyStr fh),
         ("CroppedAreaLeftPixels", pyStr l),
         ("CroppedAreaTopPixels", pyStr t)],
        hgen, by rw [hps]; rfl, rfl, rfl, rfl, rfl, rfl, rfl, rfl⟩
    · exact ⟨_,
        [("Spherical", "true"), ("Stitched", "true"),
         ("StitchingSoftware", "Spherical Metadata Tool"),
         ("ProjectionType", "equirectangular"),
         ("StereoMode", "left-right"),
         ("CroppedAreaImageWidthPixels", pyStr w),
         ("CroppedAreaImageHeightPixels", pyStr h),
         ("FullPanoWidthPixels", pyStr fw),
         ("FullPanoHeightPixels", pyStr fh),
         ("CroppedAreaLeftPixels", pyStr l),
         ("CroppedAreaTopPixels", pyStr t)],
        hgen, by rw [hps]; rfl, rfl, rfl, rfl, rfl, rfl, rfl, rfl⟩
  · intro st hst
    have hgen : generate_spherical_xml st none =
        some (SPHERICAL_XML_HEADER ++ SPHERICAL_XML_CONTENTS ++
              stereoAdditionalXml st ++ SPHERICAL_XML_FOOTER) := rfl
    have hdata : (SPHERICAL_XML_HEADER ++ SPHERICAL_XML_CONTENTS ++
        stereoAdditionalXml st ++ SPHERICAL_XML_FOOTER).data =
        HEADER_D ++ (concatElemsD (baseKvsD ++ stereoKvsD st) ++ FOOTER_D) := by
      simp [contents_data, stereo_data, concatElemsD_append,
            HEADER_D, FOOTER_D, List.append_assoc]
    have hgood : ∀ p ∈ baseKvsD ++ stereoKvsD st, GoodKV p := by
      intro p hp
      rcases List.mem_append.mp hp with hp1 | hp2
      · exact goodKV_base p hp1
      · exact goodKV_stereo st p hp2
    have hps := parse_of_concat _ hgood _ hdata
    rcases hst with rfl | rfl | rfl
    · exact ⟨_,
        [("Spherical", "true"), ("Stitched", "true"),
         ("StitchingSoftware", "Spherical Metadata Tool"),
         ("ProjectionType", "equirectangular")],
        hgen, by rw [hps]; rfl, rfl, rfl⟩
    · exact ⟨_,
        [("Spherical", "true"), ("Stitched", "true"),
         ("StitchingSoftware", "Spherical Metadata Tool"),
         ("ProjectionType", "equirectangular"),
         ("StereoMode", "top-bottom")],
        hgen, by rw [hps]; rfl, rfl, rfl⟩
    · exact ⟨_,
        [("Spherical", "true"), ("Stitched", "true"),
         ("StitchingSoftware", "Spherical Metadata Tool"),
         ("ProjectionType", "equirectangular"),
         ("StereoMode", "left-right")],
        hgen, by rw [hps]; rfl, rfl, rfl⟩

/-- Witness for C5 at the spec's concrete valid crop and `top-bottom`
stereo mode. -/
theorem spatial_c5_generate_parse_roundtrip_witness :
    ∃ x d,
      generate_spherical_xml (some "top-bottom")
        (some "4000:2000:8000:4000:2000:1000") = some x ∧
      parse_spherical_xml x = PResult.ok d ∧
      dLookup d "StereoMode" = some "top-bottom" ∧
      dLookup d "CroppedAreaImageWidthPixels" = some (pyStr 4000) ∧
      dLookup d "CroppedAreaImageHeightPixels" = some (pyStr 2000) ∧
      dLookup d "FullPanoWidthPixels" = some (pyStr 8000) ∧
      dLookup d "FullPanoHeightPixels" = some (pyStr 4000) ∧
      dLookup d "CroppedAreaLeftPixels" = some (pyStr 2000) ∧
      dLookup d "CroppedAreaTopPixels" = some (pyStr 1000) :=
  spatial_c5_generate_parse_roundtrip.1 (some "top-bottom")
    (Or.inr (Or.inl rfl)) "4000:2000:8000:4000:2000:1000"
    4000 2000 8000 4000 2000 1000 (by decide) (by decide)

/-! ## Box model

Modelled from the spec (sections 3 and 6): the repository's generic
`spatialmedia.mpeg` box model is an external collaborator whose sources are
not included here.  A box has a type tag, a content byte range (start
position and declared content size after a header), raw leaf contents, and
an ordered child list; `addChild` returns a success bool (capacity or
structural errors), modelled as a per-box `add_ok` capability;
`removeChildrenOfType` drops every child of a tag; `resize` recomputes the
sizes of mutated boxes from their children's declared total sizes. -/

inductive MBox : Type where
  | mk (name : String) (header_size : Nat) (pos : Nat) (content_size : Nat)
       (add_ok : Bool) (raw : String) (children : List MBox)

def MBox.name : MBox → String
  | .mk n _ _ _ _ _ _ => n

def MBox.header_size : MBox → Nat
  | .mk _ hs _ _ _ _ _ => hs

def MBox.pos : MBox → Nat
  | .mk _ _ p _ _ _ _ => p

def MBox.content_size : MBox → Nat
  | .mk _ _ _ cs _ _ _ => cs

def MBox.add_ok : MBox → Bool
  | .mk _ _ _ _ ok _ _ => ok

def MBox.raw : MBox → String
  | .mk _ _ _ _ _ r _ => r

def MBox.children : MBox → List MBox
  | .mk _ _ _ _ _ _ ch => ch

/-- Modelled from the spec: `Box.contentStart()` — start of the content
byte range, after the header. -/
def MBox.content_start (b : MBox) : Nat := b.pos + b.header_size

def MBox.withChildren : MBox → List MBox → MBox
  | .mk n hs p cs ok r _, ch => .mk n hs p cs ok r ch

/-- Modelled from the spec: `Box.removeChildrenOfType(tag)`
(`element.remove(...)` in the source). -/
def MBox.removeType (b : MBox) (tag : String) : MBox :=
  b.withChildren (b.children.filter (fun c => c.name != tag))

/-- Modelled from the spec: `Box.addChild(box) -> bool`
(`element.add(...)` in the source); appends as the last child on success. -/
def MBox.addChild (b : MBox) (c : MBox) : Option MBox :=
  if b.add_ok then some (b.withChildren (b.children ++ [c])) else none

/-- Modelled from the repository's `mpeg.constants`. -/
def TAG_TRAK : String := "trak"

/-- Modelled from the repository's `mpeg.constants`. -/
def TAG_MDIA : String := "mdia"

/-- Modelled from the repository's `mpeg.constants`. -/
def TAG_HDLR : String := "hdlr"

/-- Modelled from the repository's `mpeg.constants`. -/
def TAG_UUID : String := "uuid"

/-- Modelled from the repository's `mpeg.constants`: the 4-byte video
handler type. -/
def TRAK_TYPE_VIDE : String := "vide"

/-- `in_fh.seek(p); in_fh.read(n)` on the backing stream, modelled as a
character list. -/
def readStr (fh : List Char) (p n : Nat) : String :=
  String.mk ((fh.drop p).take n)

/-- Embedding of `spherical_uuid(metadata)` (source lines 99-117): a leaf
uuid box whose contents are the 16-byte signature followed by the XML and
whose declared content size is that payload's length.  The source does not
position the new box in the file; its position is irrelevant and set to 0. -/
def spherical_uuid (metadata : String) : MBox :=
  .mk TAG_UUID 8 0 (SPHERICAL_UUID_ID ++ metadata).length true
      (SPHERICAL_UUID_ID ++ metadata) []

/-- The handler byte check of `mpeg4_add_spherical` (source lines 138-140):
read 4 bytes of the backing stream at the handler box's content start plus
8 and compare with the video handler type. -/
def hdlrIsVideo (fh : List Char) (hb : MBox) : Bool :=
  readStr fh (hb.content_start + 8) 4 == TRAK_TYPE_VIDE

/-- The inner loop over an mdia box's children (source lines 135-142):
some handler-reference child reports the video type (the loop breaks at
the first such child). -/
def mdiaHasVideoHdlr (fh : List Char) (sb : MBox) : Bool :=
  sb.children.any (fun hb => hb.name == TAG_HDLR && hdlrIsVideo fh hb)

/-- The loop over a track's children (source lines 132-142): some mdia
child has a video handler. -/
def hasVideoMdia (fh : List Char) (b : MBox) : Bool :=
  b.children.any (fun sb => sb.name == TAG_MDIA && mdiaHasVideoHdlr fh sb)

/-- The moov-children loop of `mpeg4_add_spherical` (source lines 128-147),
as explicit state passing.  For every track box, in order: remove all uuid
children; if some mdia child has a video handler, append a fresh metadata
box (at most one, the loop breaks); if that append is rejected the whole
function returns `False` at once, leaving the remaining boxes untouched.
Returns the success flag and the mutated children list. -/
def addSphericalList (fh : List Char) (metadata : String) :
    List MBox → Bool × List MBox
  | [] => (true, [])
  | b :: rest =>
    if b.name == TAG_TRAK then
      let b1 := b.removeType TAG_UUID
      if hasVideoMdia fh b1 then
        match b1.addChild (spherical_uuid metadata) with
        | some b2 =>
          let r := addSphericalList fh metadata rest
          (r.1, b2 :: r.2)
        | none => (false, b1 :: rest)
      else
        let r := addSphericalList fh metadata rest
        (r.1, b1 :: r.2)
    else
      let r := addSphericalList fh metadata rest
      (r.1, b :: r.2)

/-- Modelled from the spec: one step of `Tree.resize()` at the level these
claims observe.  The tool mutates only the moov's direct children, so
the recompute visible here sets each mutated container's content size to
the sum of its children's declared total sizes (header plus content);
leaves are unchanged and deeper boxes keep their loaded sizes. -/
def resizeShallow (b : MBox) : MBox :=
  match b with
  | .mk n hs p cs ok r [] => .mk n hs p cs ok r []
  | .mk n hs p _ ok r (c :: ch) =>
    .mk n hs p (((c :: ch).map (fun x => x.header_size + x.content_size)).sum)
      ok r (c :: ch)

/-- Modelled from the spec: `Tree.resize()` over the moov children. -/
def resizedList (l : List MBox) : List MBox := l.map resizeShallow

/-- Embedding of `mpeg4_add_spherical(mpeg4_file, in_fh, metadata)`
(source lines 120-150).  An append failure returns `False` immediately —
before `mpeg4_file.resize()` runs.  If the loop completes (even with zero
appends, e.g. no video track) the tree is resized and `True` returned. -/
def mpeg4_add_spherical (fh : List Char) (moov : List MBox)
    (metadata : String) : Bool × List MBox :=
  let r := addSphericalList fh metadata moov
  if r.1 then (true, resizedList r.2) else (false, r.2)

/-- Outcome of `inject_mpeg4` on a loaded tree: the error lines sent to the
console and what (if anything) was written to the output stream. -/
structure InjectOut where
  err_lines : List String
  saved : Option (List MBox)

/-- Embedding of `inject_mpeg4(input_file, output_file, metadata, console)`
(source lines 242-257) from the point where the tree is loaded.  When
`mpeg4_add_spherical` returns `False` the source prints
"Error failed to insert spherical data" but does not return: it still
prints "Saved file settings" and always calls `mpeg4_file.save(in_fh,
out_fh)`, so the mutated tree is written to the output stream in every
case. -/
def inject_mpeg4 (fh : List Char) (moov : List MBox) (metadata : String) :
    InjectOut :=
  let r := mpeg4_add_spherical fh moov metadata
  ⟨if r.1 then [] else ["Error failed to insert spherical data"], some r.2⟩

/-! ## Injection lemmas -/

/-- The uuid-typed children of a box. -/
def uuidChildren (b : MBox) : List MBox :=
  b.children.filter (fun c => c.name == TAG_UUID)

/-- What one loop iteration does to a track box when its append succeeds:
strip uuid children, then append one metadata box when the track is a
video track. -/
def stepTrak (fh : List Char) (metadata : String) (b : MBox) : MBox :=
  if b.name == TAG_TRAK then
    let b1 := b.removeType TAG_UUID
    if hasVideoMdia fh b1 then
      b1.withChildren (b1.children ++ [spherical_uuid metadata])
    else b1
  else b

@[simp] lemma MBox.name_withChildren (b : MBox) (ch : List MBox) :
    (b.withChildren ch).name = b.name := by
  cases b
  rfl

@[simp] lemma MBox.add_ok_withChildren (b : MBox) (ch : List MBox) :
    (b.withChildren ch).add_ok = b.add_ok := by
  cases b
  rfl

@[simp] lemma MBox.children_withChildren (b : MBox) (ch : List MBox) :
    (b.withChildren ch).children = ch := by
  cases b
  rfl

@[simp] lemma resizeShallow_name (b : MBox) :
    (resizeShallow b).name = b.name := by
  cases b with
  | mk n hs p cs ok r ch => cases ch <;> rfl

@[simp] lemma resizeShallow_add_ok (b : MBox) :
    (resizeShallow b).add_ok = b.add_ok := by
  cases b with
  | mk n hs p cs ok r ch => cases ch <;> rfl

@[simp] lemma resizeShallow_children (b : MBox) :
    (resizeShallow b).children = b.children := by
  cases b with
  | mk n hs p cs ok r ch => cases ch <;> rfl

lemma hasVideoMdia_withChildren (fh : List Char) (b : MBox) (ch : List MBox) :
    hasVideoMdia fh (b.withChildren ch) = ch.any
      (fun sb => sb.name == TAG_MDIA && mdiaHasVideoHdlr fh sb) := by
  simp [hasVideoMdia]

lemma any_mdia_filter_uuid (fh : List Char) (ch : List MBox) :
    ((ch.filter (fun c => c.name != TAG_UUID)).any
      (fun sb => sb.name == TAG_MDIA && mdiaHasVideoHdlr fh sb)) =
    ch.any (fun sb => sb.name == TAG_MDIA && mdiaHasVideoHdlr fh sb) := by
  induction ch with
  | nil => rfl
  | cons c cs ih =>
    by_cases hc : c.name = TAG_UUID
    · have h1 : (c.name != TAG_UUID) = false := by simp [hc]
      have h2 : (c.name == TAG_MDIA) = false := by simp [hc, TAG_UUID, TAG_MDIA]
      simp [List.filter_cons, h1, h2, ih]
    · have h1 : (c.name != TAG_UUID) = true := by simp [hc]
      simp [List.filter_cons, h1, ih]

lemma hasVideoMdia_removeType (fh : List Char) (b : MBox) :
    hasVideoMdia fh (b.removeType TAG_UUID) = hasVideoMdia fh b := by
  rw [MBox.removeType, hasVideoMdia_withChildren, any_mdia_filter_uuid]
  rfl

lemma uuidChildren_resize (b : MBox) :
    uuidChildren (resizeShallow b) = uuidChildren b := by
  simp [uuidChildren]

lemma hasVideoMdia_resize (fh : List Char) (b : MBox) :
    hasVideoMdia fh (resizeShallow b) = hasVideoMdia fh b := by
  simp [hasVideoMdia]

lemma uuidChildren_removeType (b : MBox) :
    uuidChildren (b.removeType TAG_UUID) = [] := by
  rw [uuidChildren, MBox.removeType, MBox.children_withChildren]
  rw [List.filter_eq_nil_iff]
  intro c hc
  have h2 := (List.mem_filter.mp hc).2
  simp only [bne_iff_ne, ne_eq] at h2
  simp [h2]

lemma addSphericalList_all_ok (fh : List Char) (metadata : String) :
    ∀ moov : List MBox, (∀ b ∈ moov, b.add_ok = true) →
      addSphericalList fh metadata moov =
        (true, moov.map (stepTrak fh metadata)) := by
  intro moov
  induction moov with
  | nil => intro _; rfl
  | cons b rest ih =>
    intro hok
    have hb : b.add_ok = true := hok b (List.mem_cons_self _ _)
    have hrest := ih (fun x hx => hok x (List.mem_cons_of_mem _ hx))
    by_cases ht : b.name = TAG_TRAK
    · by_cases hv : hasVideoMdia fh (b.removeType TAG_UUID) = true
      · have hadd : (b.removeType TAG_UUID).addChild (spherical_uuid metadata) =
            some ((b.removeType TAG_UUID).withChildren
              ((b.removeType TAG_UUID).children ++ [spherical_uuid metadata])) := by
          rw [MBox.addChild]
          rw [if_pos]
          rw [MBox.removeType, MBox.add_ok_withChildren, hb]
        simp [addSphericalList, stepTrak, ht, hv, hadd, hrest]
      · simp [addSphericalList, stepTrak, ht, hv, hrest]
    · simp [addSphericalList, stepTrak, ht, hrest]

lemma mpeg4_add_all_ok (fh : List Char) (metadata : String) (moov : List MBox)
    (hok : ∀ b ∈ moov, b.add_ok = true) :
    mpeg4_add_spherical fh moov metadata =
      (true, resizedList (moov.map (stepTrak fh metadata))) := by
  rw [mpeg4_add_spherical, addSphericalList_all_ok fh metadata moov hok]
  rfl

@[simp] lemma MBox.add_ok_removeType (b : MBox) (t : String) :
    (b.removeType t).add_ok = b.add_ok := by
  simp [MBox.removeType]

@[simp] lemma MBox.name_removeType (b : MBox) (t : String) :
    (b.removeType t).name = b.name := by
  simp [MBox.removeType]

lemma stepTrak_add_ok (fh : List Char) (metadata : String) (b : MBox) :
    (stepTrak fh metadata b).add_ok = b.add_ok := by
  by_cases h1 : b.name == TAG_TRAK
  · by_cases h2 : hasVideoMdia fh (b.removeType TAG_UUID)
    · simp [stepTrak, h1, h2]
    · simp [stepTrak, h1, h2]
  · simp [stepTrak, h1]

lemma stepTrak_name (fh : List Char) (metadata : String) (b : MBox) :
    (stepTrak fh metadata b).name = b.name := by
  by_cases h1 : b.name == TAG_TRAK
  · by_cases h2 : hasVideoMdia fh (b.removeType TAG_UUID)
    · simp [stepTrak, h1, h2]
    · simp [stepTrak, h1, h2]
  · simp [stepTrak, h1]

lemma hasVideoMdia_stepTrak (fh : List Char) (m : String) (b : MBox) :
    hasVideoMdia fh (stepTrak fh m b) = hasVideoMdia fh b := by
  by_cases h1 : (b.name == TAG_TRAK) = true
  · by_cases h2 : hasVideoMdia fh (b.removeType TAG_UUID) = true
    · rw [stepTrak, if_pos h1, if_pos h2, hasVideoMdia_withChildren,
          List.any_append]
      have hu : ((spherical_uuid m).name == TAG_MDIA &&
          mdiaHasVideoHdlr fh (spherical_uuid m)) = false := by
        have hn : (spherical_uuid m).name = TAG_UUID := rfl
        rw [hn, show (TAG_UUID == TAG_MDIA) = false from by decide]
        rfl
      simp only [List.any_cons, List.any_nil, hu, Bool.or_false]
      rw [show (b.removeType TAG_UUID).children.any
            (fun sb => sb.name == TAG_MDIA && mdiaHasVideoHdlr fh sb) =
          hasVideoMdia fh (b.removeType TAG_UUID) from rfl]
      rw [hasVideoMdia_removeType]
    · rw [stepTrak, if_pos h1, if_neg h2, hasVideoMdia_removeType]
  · rw [stepTrak, if_neg h1]

lemma uuidChildren_stepTrak (fh : List Char) (m : String) (b : MBox)
    (ht : b.name = TAG_TRAK) :
    uuidChildren (stepTrak fh m b) =
      (if hasVideoMdia fh b = true then [spherical_uuid m] else []) := by
  have h1 : (b.name == TAG_TRAK) = true := by simp [ht]
  by_cases h2 : hasVideoMdia fh (b.removeType TAG_UUID) = true
  · have hb : hasVideoMdia fh b = true := by
      rw [← hasVideoMdia_removeType]
      exact h2
    rw [stepTrak, if_pos h1, if_pos h2, if_pos hb]
    rw [uuidChildren, MBox.children_withChildren, List.filter_append]
    have e1 : (b.removeType TAG_UUID).children.filter
        (fun c => c.name == TAG_UUID) = [] := uuidChildren_removeType b
    rw [e1]
    have e2 : ((spherical_uuid m).name == TAG_UUID) = true := rfl
    simp [e2]
  · have hb : hasVideoMdia fh b = false := by
      rw [← hasVideoMdia_removeType]
      simpa using h2
    rw [stepTrak, if_pos h1, if_neg h2, if_neg (by simp [hb])]
    exact uuidChildren_removeType b

/-- Head of a box list, with a fallback. -/
def headOr (l : List MBox) (d : MBox) : MBox :=
  match l with
  | [] => d
  | b :: _ => b

/-! ## Concrete demonstration boxes

A backing stream whose bytes 16-19 read "vide" and bytes 36-39 read
"soun", with handler boxes positioned accordingly. -/

def fhDemo : List Char := ("xxxxxxxxxxxxxxxxvidexxxxxxxxxxxxxxxxsoun").data

def hdlrVDemo : MBox := .mk TAG_HDLR 8 0 40 true "" []

def hdlrADemo : MBox := .mk TAG_HDLR 8 20 40 true "" []

def mdiaVDemo : MBox := .mk TAG_MDIA 8 0 100 true "" [hdlrVDemo]

def mdiaADemo : MBox := .mk TAG_MDIA 8 0 100 true "" [hdlrADemo]

def trakVDemo : MBox := .mk TAG_TRAK 8 0 200 true "" [mdiaVDemo]

def trakADemo : MBox := .mk TAG_TRAK 8 0 200 true "" [mdiaADemo]

def uuidOldDemo : MBox := .mk TAG_UUID 8 0 50 true "old" []

/-- A video track with a stale metadata box whose `addChild` is rejected
by the box model, and a stale declared content size of 999. -/
def trakVFailDemo : MBox := .mk TAG_TRAK 8 0 999 false "" [mdiaVDemo, uuidOldDemo]

lemma addSphericalList_false_iff (fh : List Char) (m : String) :
    ∀ moov : List MBox,
      ((addSphericalList fh m moov).1 = false ↔
        ∃ b ∈ moov, b.name = TAG_TRAK ∧ hasVideoMdia fh b = true ∧
          b.add_ok = false) := by
  intro moov
  induction moov with
  | nil => simp [addSphericalList]
  | cons b rest ih =>
    by_cases ht : (b.name == TAG_TRAK) = true
    · have htp : b.name = TAG_TRAK := by simpa using ht
      by_cases hv : hasVideoMdia fh (b.removeType TAG_UUID) = true
      · have hvp : hasVideoMdia fh b = true := by
          rw [← hasVideoMdia_removeType]
          exact hv
        by_cases ho : b.add_ok = true
        · have hadd : (b.removeType TAG_UUID).addChild (spherical_uuid m) =
              some ((b.removeType TAG_UUID).withChildren
                ((b.removeType TAG_UUID).children ++ [spherical_uuid m])) := by
            rw [MBox.addChild,
                if_pos (show (b.removeType TAG_UUID).add_ok = true from by
                  rw [MBox.add_ok_removeType]
                  exact ho)]
          have hfst : (addSphericalList fh m (b :: rest)).1 =
              (addSphericalList fh m rest).1 := by
            rw [addSphericalList, if_pos ht, if_pos hv, hadd]
          rw [hfst, ih]
          constructor
          · rintro ⟨x, hx1, hx2⟩
            exact ⟨x, List.mem_cons_of_mem _ hx1, hx2⟩
          · rintro ⟨x, hx1, hx2⟩
            rcases List.mem_cons.mp hx1 with rfl | hx1x
            · rw [hx2.2.2] at ho
              exact absurd ho (by decide)
            · exact ⟨x, hx1x, hx2⟩
        · have ho2 : b.add_ok = false := by
            simpa using ho
          have hadd : (b.removeType TAG_UUID).addChild (spherical_uuid m) =
              none := by
            rw [MBox.addChild,
                if_neg (show ¬(b.removeType TAG_UUID).add_ok = true from by
                  rw [MBox.add_ok_removeType, ho2]
                  decide)]
          have hfst : (addSphericalList fh m (b :: rest)).1 = false := by
            rw [addSphericalList, if_pos ht, if_pos hv, hadd]
          rw [hfst]
          constructor
          · intro _
            exact ⟨b, List.mem_cons_self _ _, htp, hvp, ho2⟩
          · intro _
            rfl
      · have hvp : hasVideoMdia fh b = false := by
          rw [← hasVideoMdia_removeType]
          simpa using hv
        have hfst : (addSphericalList fh m (b :: rest)).1 =
            (addSphericalList fh m rest).1 := by
          rw [addSphericalList, if_pos ht, if_neg hv]
        rw [hfst, ih]
        constructor
        · rintro ⟨x, hx1, hx2⟩
          exact ⟨x, List.mem_cons_of_mem _ hx1, hx2⟩
        · rintro ⟨x, hx1, hx2⟩
          rcases List.mem_cons.mp hx1 with rfl | hx1x
          · rw [hx2.2.1] at hvp
            exact absurd hvp (by decide)
          · exact ⟨x, hx1x, hx2⟩
    · have htp : b.name ≠ TAG_TRAK := by simpa using ht
      have hfst : (addSphericalList fh m (b :: rest)).1 =
          (addSphericalList fh m rest).1 := by
        rw [addSphericalList, if_neg ht]
      rw [hfst, ih]
      constructor
      · rintro ⟨x, hx1, hx2⟩
        exact ⟨x, List.mem_cons_of_mem _ hx1, hx2⟩
      · rintro ⟨x, hx1, hx2⟩
        rcases List.mem_cons.mp hx1 with rfl | hx1x
        · exact absurd hx2.1 htp
        · exact ⟨x, hx1x, hx2⟩

lemma mpeg4_fst_eq (fh : List Char) (m : String) (moov : List MBox) :
    (mpeg4_add_spherical fh moov m).1 = (addSphericalList fh m moov).1 := by
  simp only [mpeg4_add_spherical]
  by_cases hr : (addSphericalList fh m moov).1 = true
  · rw [if_pos hr, hr]
  · rw [if_neg hr]
    rw [Bool.not_eq_true] at hr
    rw [hr]

/-- C1: the claim says an append rejection aborts injection with no resize
and no persistence.  In the code, `mpeg4_add_spherical` does return `False`
before any resize (first and fourth conjuncts: the saved track keeps its
stale declared size 999 where a resize would compute 108), but
`inject_mpeg4` only prints the error and then saves anyway (source line
250 has no `return`): the half-updated tree — uuid children already
stripped — is persisted to the output stream (third conjunct). -/
theorem spatial_c1_inject_saves_despite_failure :
    (mpeg4_add_spherical fhDemo [trakVFailDemo] "x").1 = false ∧
    (inject_mpeg4 fhDemo [trakVFailDemo] "x").err_lines =
      ["Error failed to insert spherical data"] ∧
    (inject_mpeg4 fhDemo [trakVFailDemo] "x").saved =
      some [trakVFailDemo.removeType TAG_UUID] ∧
    ((inject_mpeg4 fhDemo [trakVFailDemo] "x").saved.getD []).map
        MBox.content_size = [999] ∧
    (resizedList ((inject_mpeg4 fhDemo [trakVFailDemo] "x").saved.getD [])).map
        MBox.content_size = [108] :=
  ⟨rfl, rfl, rfl, rfl, rfl⟩

/-- C6: after injecting metadata `a` and then metadata `b` into the same
tree (all appends accepted by the box model), every track box of the
result has exactly one metadata box — `spherical_uuid b` — when it is a
video track, and none at all otherwise (stale uuid boxes are stripped from
every track, video or not). -/
theorem spatial_c6_reinjection_single_uuid :
    ∀ (fh : List Char) (a b : String) (moov : List MBox),
      (∀ x ∈ moov, x.add_ok = true) →
      ∀ bx ∈ (mpeg4_add_spherical fh (mpeg4_add_spherical fh moov a).2 b).2,
        bx.name = TAG_TRAK →
        uuidChildren bx =
          (if hasVideoMdia fh bx = true then [spherical_uuid b] else []) := by
  intro fh a b moov hok bx hmem hname
  have h1 := mpeg4_add_all_ok fh a moov hok
  have hok1 : ∀ x ∈ (mpeg4_add_spherical fh moov a).2, x.add_ok = true := by
    rw [h1]
    intro x hx
    rw [resizedList] at hx
    obtain ⟨y, hy, rfl⟩ := List.mem_map.mp hx
    obtain ⟨z, hz, rfl⟩ := List.mem_map.mp hy
    rw [resizeShallow_add_ok, stepTrak_add_ok]
    exact hok z hz
  have h2 := mpeg4_add_all_ok fh b _ hok1
  rw [h2] at hmem
  rw [resizedList] at hmem
  obtain ⟨y, hy, rfl⟩ := List.mem_map.mp hmem
  obtain ⟨z, hz, rfl⟩ := List.mem_map.mp hy
  have hzname : z.name = TAG_TRAK := by
    rw [resizeShallow_name, stepTrak_name] at hname
    exact hname
  rw [uuidChildren_resize, hasVideoMdia_resize, hasVideoMdia_stepTrak]
  rw [uuidChildren_stepTrak fh b z hzname]

/-- Witness for C6: one video track, metadata `a` then `b`; the resulting
track carries exactly the metadata box for `b`. -/
theorem spatial_c6_reinjection_single_uuid_witness :
    uuidChildren (headOr (mpeg4_add_spherical fhDemo
        (mpeg4_add_spherical fhDemo [trakVDemo] "a").2 "b").2 trakVDemo) =
      [spherical_uuid "b"] := by
  have h := spatial_c6_reinjection_single_uuid fhDemo "a" "b" [trakVDemo]
    (by
      intro x hx
      rw [List.mem_singleton.mp hx]
      rfl)
    (headOr (mpeg4_add_spherical fhDemo
        (mpeg4_add_spherical fhDemo [trakVDemo] "a").2 "b").2 trakVDemo)
    (List.mem_singleton.mpr rfl) rfl
  rw [h]
  rw [if_pos (show hasVideoMdia fhDemo (headOr (mpeg4_add_spherical fhDemo
    (mpeg4_add_spherical fhDemo [trakVDemo] "a").2 "b").2 trakVDemo) = true
    from rfl)]

/-- One loop iteration's effect on one box, related to the original box:
a video track gets the fresh metadata box appended as its last child after
the uuid sweep; a non-video track ends with no metadata box; other boxes
are merely resized. -/
def injectedTrack (fh : List Char) (m : String) (b rb : MBox) : Prop :=
  (b.name = TAG_TRAK → hasVideoMdia fh b = true →
    rb.children = (b.removeType TAG_UUID).children ++ [spherical_uuid m]) ∧
  (b.name = TAG_TRAK → hasVideoMdia fh b = false → uuidChildren rb = []) ∧
  (b.name ≠ TAG_TRAK → rb = resizeShallow b)

lemma injectedTrack_step (fh : List Char) (m : String) (x : MBox) :
    injectedTrack fh m x (resizeShallow (stepTrak fh m x)) := by
  refine ⟨?_, ?_, ?_⟩
  · intro ht hv
    rw [resizeShallow_children]
    have h1 : (x.name == TAG_TRAK) = true := by simp [ht]
    have h2 : hasVideoMdia fh (x.removeType TAG_UUID) = true := by
      rw [hasVideoMdia_removeType]
      exact hv
    rw [stepTrak, if_pos h1, if_pos h2, MBox.children_withChildren]
  · intro ht hv
    rw [uuidChildren_resize, uuidChildren_stepTrak fh m x ht, if_neg]
    simp [hv]
  · intro ht
    rw [stepTrak, if_neg (by simpa using ht)]

/-- C7: the built metadata box is a uuid box whose content is exactly the
16-byte signature followed by the XML, with declared content length equal
to the payload length; a track counts as video precisely by the 4-byte
read at the handler box's content start plus 8; injection appends the
metadata box as the last child of exactly the video tracks (concretely:
of three tracks with only the second video, only the second gains one). -/
theorem spatial_c7_video_track_append :
    (∀ m : String, (spherical_uuid m).name = TAG_UUID ∧
        (spherical_uuid m).raw = SPHERICAL_UUID_ID ++ m ∧
        (spherical_uuid m).content_size = (SPHERICAL_UUID_ID ++ m).length ∧
        (spherical_uuid m).children = []) ∧
    (∀ (fh : List Char) (hb : MBox),
        hdlrIsVideo fh hb =
          (readStr fh (hb.content_start + 8) 4 == TRAK_TYPE_VIDE)) ∧
    (∀ (fh : List Char) (m : String) (moov : List MBox),
        (∀ x ∈ moov, x.add_ok = true) →
        List.Forall₂ (injectedTrack fh m) moov
          (mpeg4_add_spherical fh moov m).2) ∧
    (∃ r1 r2 r3,
        (mpeg4_add_spherical fhDemo [trakADemo, trakVDemo, trakADemo] "x").2 =
          [r1, r2, r3] ∧
        uuidChildren r1 = [] ∧ uuidChildren r2 = [spherical_uuid "x"] ∧
        uuidChildren r3 = []) := by
  refine ⟨fun m => ⟨rfl, rfl, rfl, rfl⟩, fun fh hb => rfl, ?_, ?_⟩
  · intro fh m moov hok
    rw [mpeg4_add_all_ok fh m moov hok, resizedList, List.map_map]
    rw [List.forall₂_map_right_iff]
    rw [List.forall₂_same]
    intro x _
    exact injectedTrack_step fh m x
  · exact ⟨_, _, _, rfl, rfl, rfl, rfl⟩

/-- Witness for C7's quantified part at the three-track tree. -/
theorem spatial_c7_video_track_append_witness :
    List.Forall₂ (injectedTrack fhDemo "x") [trakADemo, trakVDemo, trakADemo]
      (mpeg4_add_spherical fhDemo [trakADemo, trakVDemo, trakADemo] "x").2 :=
  spatial_c7_video_track_append.2.2.1 fhDemo "x" _ (by
    intro x hx
    simp only [List.mem_cons, List.not_mem_nil, or_false] at hx
    rcases hx with rfl | rfl | rfl <;> rfl)

/-- Counterexample to C8 as stated: a tree with one track and no video
track.  Zero appends happen (the result track has no uuid child), yet
`mpeg4_add_spherical` falls through to the resize and returns `True`, not
failure. -/
theorem spatial_c8_no_video_counterexample :
    (mpeg4_add_spherical fhDemo [trakADemo] "x").1 = true ∧
    trakADemo.name = TAG_TRAK ∧
    hasVideoMdia fhDemo trakADemo = false ∧
    uuidChildren (headOr (mpeg4_add_spherical fhDemo [trakADemo] "x").2
      trakADemo) = [] :=
  ⟨rfl, rfl, rfl, rfl⟩

/-- C8 (amended): `mpeg4_add_spherical` reports failure exactly when some
attempted append is rejected by the box model — that is, when some track
is a video track whose `addChild` fails; with tracks but no video track it
performs no append and still reports success. -/
theorem spatial_c8_failure_iff_append_rejected :
    ∀ (fh : List Char) (m : String) (moov : List MBox),
      ((mpeg4_add_spherical fh moov m).1 = false ↔
        ∃ b ∈ moov, b.name = TAG_TRAK ∧ hasVideoMdia fh b = true ∧
          b.add_ok = false) := by
  intro fh m moov
  rw [mpeg4_fst_eq]
  exact addSphericalList_false_iff fh m moov

/-- Witness for C8's amended statement: the rejected append on a video
track makes the whole function fail. -/
theorem spatial_c8_failure_iff_append_rejected_witness :
    (mpeg4_add_spherical fhDemo [trakVFailDemo] "x").1 = false := by
  rw [spatial_c8_failure_iff_append_rejected fhDemo "x" [trakVFailDemo]]
  exact ⟨trakVFailDemo, List.mem_singleton.mpr rfl, rfl, rfl, rfl⟩
